import Mathlib

/- Shallow embedding of the identity-correlation and protocol-translation core
   of the migration-bridge server:
     - src/server/src/services/identity/correlator.js
     - src/server/src/services/identity/translator.js
     - src/server/src/services/protocol-bridge.js (executeRoundTrip)
   The Mongo collection of identity mappings is modeled as a list of documents
   in insertion order; `findOne` returns the first match and `document.save()`
   writes the fetched document back in place.  Timestamps (createdAt /
   updatedAt), mongoose `_id` values, logging and JWT signing are not modeled;
   values the source derives from the clock or randomness (uuids, ISO date
   strings) are passed in as explicit parameters. -/

namespace Bridge

/-- Migration phases, `correlator.js` schema enum
    `['traditional', 'preparation', 'hybrid', 'claiming', 'full_ssi']`. -/
inductive Phase where
  | traditional
  | preparation
  | hybrid
  | claiming
  | full_ssi
deriving Repr, DecidableEq

/-- Position of a phase in the ordered migration lifecycle
    `traditional → preparation → hybrid → claiming → full_ssi`. -/
def phaseIdx : Phase → Nat
  | .traditional => 0
  | .preparation => 1
  | .hybrid => 2
  | .claiming => 3
  | .full_ssi => 4

/-- JS truthiness of an optional string field: `undefined` and `""` are falsy. -/
def optTruthy : Option String → Bool
  | none => false
  | some s => s != ""

/-- JS `x || d` for an optional string `x` (absent and `""` are falsy). -/
def jsOrS (x : Option String) (d : String) : String :=
  match x with
  | some s => if s == "" then d else s
  | none => d

/-- `[...new Set([...])]` on a provider list: removes duplicates, keeping the
    first occurrence of each element (JS `Set` iterates in insertion order). -/
def jsSetDedup (l : List String) : List String :=
  l.foldl (fun acc x => if x ∈ acc then acc else acc ++ [x]) []

/-- JS `hay.includes(needle)` (substring test) on character lists. -/
def charsInclude : List Char → List Char → Bool
  | [], needle => needle.isEmpty
  | c :: t, needle => needle.isPrefixOf (c :: t) || charsInclude t needle

/-- `normalizeForComparison` from `areProvidersRelated` (correlator.js:76-77):
    `provider.toLowerCase().replace(/[^a-z0-9]/g, '')`. -/
def normalizeForComparison (provider : String) : List Char :=
  (provider.data.map Char.toLower).filter fun c =>
    (decide ('a' ≤ c) && decide (c ≤ 'z')) || (decide ('0' ≤ c) && decide (c ≤ '9'))

/-- The common provider families checked by the relatedness heuristic
    (correlator.js:98). -/
def commonTypes : List String := ["saml", "oidc", "oauth", "jwt", "keycloak", "auth0"]

/-- `areProvidersRelated` (correlator.js:70-107): a requested provider is
    related to the existing providers when, after normalization, it equals one
    of them, one contains the other, or both contain a common family name. -/
def areProvidersRelated (requestedProvider : String) (existingProviders : List String) : Bool :=
  if requestedProvider == "" || existingProviders.isEmpty then false
  else
    let normalizedRequested := normalizeForComparison requestedProvider
    existingProviders.any fun existing =>
      let normalizedExisting := normalizeForComparison existing
      normalizedRequested == normalizedExisting ||
      charsInclude normalizedRequested normalizedExisting ||
      charsInclude normalizedExisting normalizedRequested ||
      commonTypes.any fun t =>
        charsInclude normalizedRequested t.data && charsInclude normalizedExisting t.data

/-- `userDetails` sub-record of an identity mapping (correlator.js:37-44).
    The free-form `attributes` map is not modeled. -/
structure UserDetails where
  firstName : String := ""
  lastName : String := ""
  displayName : String := ""
  username : String := ""
  roles : List String := []
deriving Repr, DecidableEq

/-- An identity-mapping document (the `IdentityMappingSchema` of
    correlator.js:6-49).  `provider` is the array of provider names;
    optional schema fields are `Option`s. -/
structure Mapping where
  traditionalId : String
  provider : List String
  email : String
  password : Option String := none
  authMethod : String := "saml"
  did : Option String := none
  didMethod : Option String := none
  walletConnected : Bool := false
  walletConnectionId : Option String := none
  status : String := "active"
  migrationPhase : Phase := Phase.traditional
  userDetails : Option UserDetails := none
deriving Repr, DecidableEq

/-- The mapping collection, in insertion order. -/
abbrev Store := List Mapping

/-- `document.save()` on a fetched mapping: the updated document is written
    back in place.  The collection has a unique index on `traditionalId`
    (correlator.js:52), so the document is identified by it: the first (hence,
    under the index, only) entry with that `traditionalId` is replaced. -/
def saveMapping : Store → String → Mapping → Store
  | [], _, _ => []
  | m :: rest, tid, updated =>
    if m.traditionalId == tid then updated :: rest
    else m :: saveMapping rest tid updated

/-- `IdentityMapping.deleteOne({ traditionalId })`: removes the first document
    with the given `traditionalId`; reports whether one was deleted. -/
def deleteOneByTraditionalId : Store → String → Bool × Store
  | [], _ => (false, [])
  | m :: rest, tid =>
    if m.traditionalId == tid then (true, rest)
    else
      let r := deleteOneByTraditionalId rest tid
      (r.1, m :: r.2)

/-- Errors thrown by the correlator (storage-layer failures are not modeled):
    the duplicate-DID conflict in `addDid` (correlator.js:318) and the
    not-found failure in `updateMapping` (correlator.js:267). -/
inductive CorrError where
  | conflict (did : String)
  | notFound (traditionalId : String)
deriving Repr, DecidableEq

/-- `normalizeProvider` (correlator.js:64-67) wraps a single string into an
    array and maps a missing value to `[]`; on an array it is the identity.
    The embedding passes provider arrays directly, so it is the identity. -/
def normalizeProvider (provider : List String) : List String := provider

/-- `IdentityCorrelator.findByTraditionalId` (correlator.js:121-173).
    Two-phase lookup returning the found mapping (or `none`) together with the
    possibly-updated store: strategy 1 is an exact `findOne({traditionalId,
    provider: {$in: …}})`; strategy 2 falls back to `traditionalId` alone and,
    when exactly one provider was requested and it is unrelated to the
    existing ones, pushes the requested provider onto the record and saves. -/
def findByTraditionalId (st : Store) (traditionalId : String) (provider : List String) :
    Option Mapping × Store :=
  let normalizedProvider := normalizeProvider provider
  let exact :=
    if normalizedProvider.isEmpty then none
    else st.find? fun m =>
      m.traditionalId == traditionalId &&
      m.provider.any (fun p => normalizedProvider.contains p)
  match exact with
  | some m => (some m, st)
  | none =>
    match st.find? (fun m => m.traditionalId == traditionalId) with
    | none => (none, st)
    | some idOnlyMatch =>
      match normalizedProvider with
      | [requestedProvider] =>
        if areProvidersRelated requestedProvider idOnlyMatch.provider then
          (some idOnlyMatch, st)
        else
          let updated := { idOnlyMatch with
                           provider := idOnlyMatch.provider ++ [requestedProvider] }
          (some updated, saveMapping st traditionalId updated)
      | _ => (some idOnlyMatch, st)

/-- `IdentityCorrelator.findByDid` (correlator.js:180-187):
    `findOne({ did })`. -/
def findByDid (st : Store) (did : String) : Option Mapping :=
  st.find? fun m => m.did == some did

/-- `IdentityCorrelator.findByEmail` (correlator.js:194-201):
    `findOne({ email })`. -/
def findByEmail (st : Store) (email : String) : Option Mapping :=
  st.find? fun m => m.email == email

/-- The argument of `createMapping` (the `mappingData` object).  Fields the
    callers in the modeled flows supply; `migrationPhase` is always
    overwritten by `createMapping` itself (correlator.js:231-238). -/
structure MappingData where
  traditionalId : String
  provider : List String
  email : String
  did : Option String := none
  didMethod : Option String := none
  walletConnected : Bool := false
  status : String := "active"
  migrationPhase : Phase := Phase.traditional
  userDetails : Option UserDetails := none
deriving Repr, DecidableEq

/-- `IdentityCorrelator.createMapping` (correlator.js:208-250).  If a mapping
    with the same `traditionalId` exists, merges any new providers into it
    (set union) and returns it; otherwise computes the initial phase from
    `(did, walletConnected)` and inserts a fresh document. -/
def createMapping (st : Store) (mappingData : MappingData) : Mapping × Store :=
  -- the source first replaces `mappingData.provider` by
  -- `normalizeProvider(mappingData.provider)`, the identity on arrays
  match st.find? (fun m => m.traditionalId == mappingData.traditionalId) with
  | some existingMapping =>
    if mappingData.provider.any (fun p => !existingMapping.provider.contains p) then
      let updated := { existingMapping with
                       provider := jsSetDedup
                         (existingMapping.provider ++ mappingData.provider) }
      (updated, saveMapping st mappingData.traditionalId updated)
    else (existingMapping, st)
  | none =>
    let m : Mapping := {
      traditionalId := mappingData.traditionalId
      provider := mappingData.provider
      email := mappingData.email
      did := mappingData.did
      didMethod := mappingData.didMethod
      walletConnected := mappingData.walletConnected
      status := mappingData.status
      migrationPhase :=
        if optTruthy mappingData.did && mappingData.walletConnected then Phase.hybrid
        else if optTruthy mappingData.did then Phase.preparation
        else Phase.traditional
      userDetails := mappingData.userDetails }
    (m, st ++ [m])

/-- The patch argument of `updateMapping`: a partial assignment of mapping
    fields (`traditionalId`, `_id` cannot be patched; `provider` is handled
    as a set-merge, correlator.js:271-285). -/
structure UpdatePatch where
  email : Option String := none
  did : Option String := none
  didMethod : Option String := none
  walletConnected : Option Bool := none
  walletConnectionId : Option String := none
  status : Option String := none
  migrationPhase : Option Phase := none
  provider : Option (List String) := none
deriving Repr, DecidableEq

/-- The field-by-field part of `updateMapping`'s patch application
    (correlator.js:271-279): every present patch key other than
    `traditionalId`, `provider` and `_id` overwrites the mapping field. -/
def applyPatchFields (m : Mapping) (patch : UpdatePatch) : Mapping :=
  { m with
    email := patch.email.getD m.email
    did := match patch.did with | some d => some d | none => m.did
    didMethod := match patch.didMethod with | some d => some d | none => m.didMethod
    walletConnected := patch.walletConnected.getD m.walletConnected
    walletConnectionId :=
      match patch.walletConnectionId with | some w => some w | none => m.walletConnectionId
    status := patch.status.getD m.status
    migrationPhase := patch.migrationPhase.getD m.migrationPhase }

/-- The provider part of `updateMapping`'s patch handling
    (correlator.js:282-285): patched providers are merged as a set union. -/
def mergePatchProviders (m : Mapping) (patch : UpdatePatch) : Mapping :=
  match patch.provider with
  | some newProviders =>
    { m with provider := jsSetDedup (m.provider ++ normalizeProvider newProviders) }
  | none => m

/-- The phase re-derivation at the end of `updateMapping`
    (correlator.js:287-292): `hybrid` when DID and wallet, `preparation` when
    DID only — and no `else` branch, so a DID-less mapping keeps whatever
    phase the patch (or the previous state) gave it. -/
def rederivePhase (m : Mapping) : Mapping :=
  if optTruthy m.did && m.walletConnected then
    { m with migrationPhase := Phase.hybrid }
  else if optTruthy m.did then
    { m with migrationPhase := Phase.preparation }
  else m

/-- `IdentityCorrelator.updateMapping` (correlator.js:259-303).  Looks the
    mapping up (possibly mutating via the unrelated-provider attach), applies
    the patch, merges any patched providers as a set union, then re-derives
    the migration phase — but only when a DID is present: the source has no
    `else` branch resetting the phase to `traditional` (correlator.js:287-292). -/
def updateMapping (st : Store) (traditionalId : String) (provider : List String)
    (updateData : UpdatePatch) : Except CorrError Mapping × Store :=
  let normalizedProvider := normalizeProvider provider
  let found := findByTraditionalId st traditionalId normalizedProvider
  match found.1 with
  | none => (Except.error (CorrError.notFound traditionalId), found.2)
  | some mapping =>
    let updated := rederivePhase (mergePatchProviders (applyPatchFields mapping updateData) updateData)
    (Except.ok updated, saveMapping found.2 traditionalId updated)

/-- `IdentityCorrelator.addDid` (correlator.js:313-354).  Throws a conflict
    when the DID is already associated with any mapping; otherwise finds (or
    creates, with a placeholder email) the mapping, sets `did`, `didMethod`
    and `migrationPhase = 'preparation'`, and saves. -/
def addDid (st : Store) (traditionalId : String) (provider : List String)
    (did : String) (didMethod : String) : Except CorrError Mapping × Store :=
  match findByDid st did with
  | some _ => (Except.error (CorrError.conflict did), st)
  | none =>
    let found := findByTraditionalId st traditionalId provider
    let created :=
      match found.1 with
      | some m => (m, found.2)
      | none =>
        createMapping found.2 {
          traditionalId := traditionalId
          provider := normalizeProvider provider
          email := traditionalId ++ "@example.com"
          status := "active"
          migrationPhase := Phase.traditional }
    let updated := { created.1 with
                     did := some did
                     didMethod := some didMethod
                     migrationPhase := Phase.preparation }
    (Except.ok updated, saveMapping created.2 traditionalId updated)

/-- `IdentityCorrelator.connectWallet` (correlator.js:363-402).  Finds (or
    creates, with a placeholder email) the mapping, sets
    `walletConnected = true`, records the connection id, and advances the
    phase to `hybrid` when a DID is present. -/
def connectWallet (st : Store) (traditionalId : String) (provider : List String)
    (connectionId : String) : Mapping × Store :=
  let found := findByTraditionalId st traditionalId provider
  let created :=
    match found.1 with
    | some m => (m, found.2)
    | none =>
      createMapping found.2 {
        traditionalId := traditionalId
        provider := normalizeProvider provider
        email := traditionalId ++ "@example.com"
        status := "active"
        migrationPhase := Phase.traditional }
  let m1 := { created.1 with
              walletConnected := true
              walletConnectionId := some connectionId }
  let m2 :=
    if optTruthy m1.did then { m1 with migrationPhase := Phase.hybrid } else m1
  (m2, saveMapping created.2 traditionalId m2)

/-- `IdentityCorrelator.updateMigrationPhase` (correlator.js:486-493):
    delegates to `updateMapping` with a `{ migrationPhase }` patch. -/
def updateMigrationPhase (st : Store) (traditionalId : String) (provider : List String)
    (phase : Phase) : Except CorrError Mapping × Store :=
  updateMapping st traditionalId provider { migrationPhase := some phase }

/-- `IdentityCorrelator.deleteMapping` (correlator.js:501-536).  With a
    non-empty provider list: looks the mapping up, deletes the whole document
    when `mapping.provider.length <= providers.length` and every requested
    provider is on the record, otherwise strips the requested providers and
    saves; returns `true` in both cases.  With an empty provider list,
    `deleteOne({ traditionalId })`. -/
def deleteMapping (st : Store) (traditionalId : String) (provider : List String) :
    Bool × Store :=
  let normalizedProvider := normalizeProvider provider
  if !normalizedProvider.isEmpty then
    let found := findByTraditionalId st traditionalId normalizedProvider
    match found.1 with
    | none => (false, found.2)
    | some mapping =>
      if mapping.provider.length ≤ normalizedProvider.length &&
         normalizedProvider.all (fun p => mapping.provider.contains p) then
        (true, (deleteOneByTraditionalId found.2 traditionalId).2)
      else
        let updated := { mapping with
                         provider := mapping.provider.filter
                           (fun p => !normalizedProvider.contains p) }
        (true, saveMapping found.2 traditionalId updated)
  else
    deleteOneByTraditionalId st traditionalId

/-- A roles attribute as delivered by a protocol payload: either an array or
    a scalar string (translator.js normalizes scalars to arrays). -/
inductive RolesField where
  | list (roles : List String)
  | scalar (s : String)
deriving Repr, DecidableEq

/-- `roles = subject.roles || []` followed by
    `if (!Array.isArray(roles)) roles = [roles].filter(Boolean)`:
    an absent attribute or a falsy scalar becomes `[]`; arrays (truthy even
    when empty) pass through; a truthy scalar is wrapped. -/
def normalizeRoles : Option RolesField → List String
  | none => []
  | some (.list roles) => roles
  | some (.scalar s) => if s == "" then [] else [s]

/-- The normalized identity produced by the translator (translator.js).
    `id` is the raw subject field of the source payload, which the SAML and
    OIDC extractors copy without checking; the free-form `attributes` copy of
    the raw payload is not modeled. -/
structure NormalizedIdentity where
  id : Option String := none
  authProtocol : String := ""
  authProvider : Option String := none
  email : String := ""
  firstName : String := ""
  lastName : String := ""
  displayName : String := ""
  roles : List String := []
  authTime : Option String := none
deriving Repr, DecidableEq

/-- The attribute bag of a SAML assertion as consumed by `extractFromSaml`. -/
structure SamlAttributes where
  email : Option String := none
  firstName : Option String := none
  lastName : Option String := none
  displayName : Option String := none
  roles : Option RolesField := none
deriving Repr, DecidableEq

/-- A parsed SAML assertion object, the input of `extractFromSaml`. -/
structure SamlAssertion where
  subject : Option String := none
  issuer : Option String := none
  attributes : Option SamlAttributes := none
  timestamp : Option String := none
deriving Repr, DecidableEq

/-- `ProtocolTranslator.extractFromSaml` (translator.js:18-53).  `now` stands
    for `new Date().toISOString()` (the `authTime` fallback).  When the
    `attributes` object is absent, the attribute accesses throw a `TypeError`,
    caught and rethrown with the generic message; the `!assertion` null check
    has no counterpart here since the input structure is never null.  Note the
    subject (SAML NameID) is copied without any presence check. -/
def extractFromSaml (assertion : SamlAssertion) (now : String) :
    Except String NormalizedIdentity :=
  match assertion.attributes with
  | none => Except.error "Failed to extract identity from SAML assertion"
  | some attrs =>
    let firstName := jsOrS attrs.firstName ""
    let lastName := jsOrS attrs.lastName ""
    Except.ok {
      id := assertion.subject
      authProtocol := "saml"
      authProvider := assertion.issuer
      email := jsOrS attrs.email ""
      firstName := firstName
      lastName := lastName
      displayName := jsOrS attrs.displayName (firstName ++ " " ++ lastName)
      roles := normalizeRoles attrs.roles
      authTime := some (jsOrS assertion.timestamp now) }

/-- `realm_access` claim object of an OIDC token. -/
structure RealmAccess where
  roles : Option RolesField := none
deriving Repr, DecidableEq

/-- An OIDC claim set, the input of `extractFromOidc`.  Numeric claims are
    modeled as naturals (epoch seconds). -/
structure OidcToken where
  sub : Option String := none
  iss : Option String := none
  email : Option String := none
  given_name : Option String := none
  family_name : Option String := none
  name : Option String := none
  roles : Option RolesField := none
  realm_access : Option RealmAccess := none
  auth_time : Option Nat := none
  iat : Option Nat := none
deriving Repr, DecidableEq

/-- `token.roles || token.realm_access?.roles || []` (translator.js:79): the
    first truthy operand wins; arrays are truthy even when empty, an absent
    claim and a `""` scalar are falsy.  The scalar-wrapping normalization of
    translator.js:82-84 is folded in. -/
def oidcRoles (token : OidcToken) : List String :=
  match token.roles with
  | some (.list roles) => roles
  | some (.scalar s) =>
    if s != "" then [s]
    else match token.realm_access with
      | some ra => normalizeRoles ra.roles
      | none => []
  | none =>
    match token.realm_access with
    | some ra => normalizeRoles ra.roles
    | none => []

/-- `new Date(token.auth_time * 1000 || token.iat * 1000).toISOString()`
    (translator.js:87): an absent claim gives `NaN`, which is falsy, and a
    zero `auth_time` is falsy too; `new Date(NaN).toISOString()` throws.  The
    ISO rendering of the chosen epoch-millisecond value is modeled as its
    decimal string. -/
def oidcAuthTime (token : OidcToken) : Option String :=
  match token.auth_time with
  | some t =>
    if t != 0 then some (toString (t * 1000))
    else match token.iat with
      | some t2 => some (toString (t2 * 1000))
      | none => none
  | none =>
    match token.iat with
    | some t2 => some (toString (t2 * 1000))
    | none => none

/-- `ProtocolTranslator.extractFromOidc` (translator.js:60-94).  The `sub`
    claim is copied without any presence check; the only failure of the
    source body is the `Invalid Date` throw when both `auth_time` and `iat`
    are unusable, rethrown with the generic message. -/
def extractFromOidc (token : OidcToken) : Except String NormalizedIdentity :=
  match oidcAuthTime token with
  | none => Except.error "Failed to extract identity from OIDC token"
  | some authTime =>
    let firstName := jsOrS token.given_name ""
    let lastName := jsOrS token.family_name ""
    Except.ok {
      id := token.sub
      authProtocol := "oidc"
      authProvider := token.iss
      email := jsOrS token.email ""
      firstName := firstName
      lastName := lastName
      displayName := jsOrS token.name (firstName ++ " " ++ lastName)
      roles := oidcRoles token
      authTime := some authTime }

/-- `credentialSubject` of a verifiable credential as consumed and produced
    by the translator. -/
structure CredentialSubject where
  id : Option String := none
  email : Option String := none
  name : Option String := none
  firstName : Option String := none
  lastName : Option String := none
  givenName : Option String := none
  familyName : Option String := none
  roles : Option RolesField := none
deriving Repr, DecidableEq

/-- A verifiable credential as built by `toVerifiableCredential` and consumed
    by `extractFromVerifiableCredential`.  `context` models `@context`. -/
structure VerifiableCredential where
  context : List String := []
  id : String := ""
  type : List String := []
  issuer : String := ""
  issuanceDate : String := ""
  expirationDate : Option String := none
  credentialSubject : Option CredentialSubject := none
deriving Repr, DecidableEq

/-- `ProtocolTranslator.toVerifiableCredential` (translator.js:102-161).
    `uuid` stands for `uuidv4()`, `issuanceDate` for
    `new Date().toISOString()` and `expirationDate` for the same date plus one
    year; `configIssuerDid` is `config.didRegistry.issuerDid`.  The
    `!identity || !did` guard reduces to the truthiness of `did`; the
    defensive shape checks on `@context`, `id`, `type` and `issuer` are kept
    (`id.startsWith('urn:uuid:')` as a character-list prefix test), while the
    `Date.parse(issuanceDate)` check (always satisfied by a `toISOString()`
    result) and the `credentialSubject` object check (always an object
    literal here) are omitted. -/
def toVerifiableCredential (identity : NormalizedIdentity) (did : String)
    (uuid : String) (issuanceDate : String) (expirationDate : String)
    (configIssuerDid : Option String) : Except String VerifiableCredential :=
  if did == "" then Except.error "Failed to create verifiable credential"
  else
    let credential : VerifiableCredential := {
      context := ["https://www.w3.org/2018/credentials/v1",
                  "https://w3id.org/security/suites/ed25519-2020/v1"]
      id := "urn:uuid:" ++ uuid
      type := ["VerifiableCredential", "IdentityCredential"]
      issuer := jsOrS configIssuerDid "did:example:issuer"
      issuanceDate := issuanceDate
      expirationDate := some expirationDate
      credentialSubject := some {
        id := some did
        email := some identity.email
        name := some identity.displayName
        firstName := some identity.firstName
        lastName := some identity.lastName
        roles := some (RolesField.list identity.roles) } }
    if credential.context.head? != some "https://www.w3.org/2018/credentials/v1" then
      Except.error "Failed to create verifiable credential"
    else if credential.id == "" || !(List.isPrefixOf "urn:uuid:".data credential.id.data) then
      Except.error "Failed to create verifiable credential"
    else if credential.type.head? != some "VerifiableCredential" then
      Except.error "Failed to create verifiable credential"
    else if credential.issuer == "" then
      Except.error "Failed to create verifiable credential"
    else
      Except.ok credential

/-- `ProtocolTranslator.extractFromVerifiableCredential`
    (translator.js:295-331).  Fails when `credentialSubject` or a truthy
    `credentialSubject.id` is absent; optional subject attributes default to
    `""` / `[]`. -/
def extractFromVerifiableCredential (credential : VerifiableCredential) :
    Except String NormalizedIdentity :=
  match credential.credentialSubject with
  | none => Except.error "Failed to extract identity from Verifiable Credential"
  | some subject =>
    if !optTruthy subject.id then
      Except.error "Failed to extract identity from Verifiable Credential"
    else
      let firstName := jsOrS subject.firstName (jsOrS subject.givenName "")
      let lastName := jsOrS subject.lastName (jsOrS subject.familyName "")
      Except.ok {
        id := subject.id
        authProtocol := "vc"
        authProvider := some credential.issuer
        email := jsOrS subject.email ""
        firstName := firstName
        lastName := lastName
        displayName := jsOrS subject.name (firstName ++ " " ++ lastName)
        roles := normalizeRoles subject.roles
        authTime := some credential.issuanceDate }

/-- The options object of `generateJwt` as used by the modeled flows;
    `walletConnectedClaim` is the `additionalClaims.wallet_connected` entry
    passed by `executeRoundTrip` (the `mapping_id` claim, a mongoose object
    id, is not modeled). -/
structure JwtOptions where
  migrationPhase : Option Phase := none
  did : Option String := none
  audience : Option String := none
  walletConnectedClaim : Option Bool := none
deriving Repr, DecidableEq

/-- The claim set of the session token built by `generateJwt`
    (translator.js:349-372); `iat`/`exp` (clock) and the HS256 signature are
    not modeled. -/
structure JwtPayload where
  sub : String
  iss : String
  aud : String
  auth_protocol : String
  auth_provider : Option String
  email : String
  name : String
  roles : List String
  migration_phase : Phase
  did : Option String
  wallet_connected : Option Bool
deriving Repr, DecidableEq

/-- `ProtocolTranslator.generateJwt` (translator.js:339-383).  Fails when
    `identity.id` is falsy; `options.did` is added only when truthy;
    `options.migrationPhase || 'traditional'` (a phase enum string is always
    truthy, so only absence falls back). -/
def generateJwt (identity : NormalizedIdentity) (options : JwtOptions) :
    Except String JwtPayload :=
  match identity.id with
  | none => Except.error "Failed to generate JWT"
  | some uid =>
    if uid == "" then Except.error "Failed to generate JWT"
    else Except.ok {
      sub := uid
      iss := "protocol-bridge"
      aud := jsOrS options.audience "protocol-bridge-client"
      auth_protocol := identity.authProtocol
      auth_provider := identity.authProvider
      email := identity.email
      name := identity.displayName
      roles := identity.roles
      migration_phase := options.migrationPhase.getD Phase.traditional
      did := match options.did with
             | some d => if d == "" then none else some d
             | none => none
      wallet_connected := options.walletConnectedClaim }

/-- `IdentityCorrelator.findOrCreateMapping` (correlator.js:410-477): look up
    by `userData.id`, else by email (merging the new providers in), else
    create a fresh mapping; on a hit, merge providers and refresh a changed
    email.  `uuid` stands for the `uuidv4()` of the unknown-email fallback.
    The modeled flows always supply a present, non-empty `userData.id`
    (enforced by `extractFromVerifiableCredential`), so the lookup key is
    taken as `userData.id.getD ""`. -/
def findOrCreateMapping (st : Store) (userData : NormalizedIdentity)
    (provider : List String) (uuid : String) : Mapping × Store :=
  let normalizedProvider := normalizeProvider provider
  let uid := userData.id.getD ""
  let found := findByTraditionalId st uid normalizedProvider
  match found.1 with
  | none =>
    match (if userData.email != "" then findByEmail found.2 userData.email else none) with
    | some mapping =>
      let updated := { mapping with
                       provider := jsSetDedup (mapping.provider ++ normalizedProvider) }
      (updated, saveMapping found.2 mapping.traditionalId updated)
    | none =>
      createMapping found.2 {
        traditionalId := uid
        provider := normalizedProvider
        email := if userData.email != "" then userData.email
                 else "unknown-" ++ uuid ++ "@example.com"
        userDetails := some {
          firstName := userData.firstName
          lastName := userData.lastName
          displayName := userData.displayName
          username := ""
          roles := userData.roles } }
  | some mapping =>
    let addProviders := normalizedProvider.any (fun p => !mapping.provider.contains p)
    let m1 :=
      if addProviders then
        { mapping with provider := jsSetDedup (mapping.provider ++ normalizedProvider) }
      else mapping
    let st1 := if addProviders then saveMapping found.2 uid m1 else found.2
    if userData.email != "" && userData.email != m1.email then
      let m2 := { m1 with email := userData.email }
      (m2, saveMapping st1 uid m2)
    else (m1, st1)

/-- Result of the credential-verification collaborator
    (`credentialService.verifyCredential`, surfaced through
    `ProtocolBridge.verifyCredential`): `{verified, error?}`. -/
structure VerifyResult where
  verified : Bool
  error : Option String := none
deriving Repr, DecidableEq

/-- The `user` object of a successful round-trip result
    (protocol-bridge.js:477-485). -/
structure RoundTripUser where
  id : Option String
  email : String
  name : String
  roles : List String
  migrationPhase : Phase
  did : Option String
  walletConnected : Bool
deriving Repr, DecidableEq

/-- Outcome of `executeRoundTrip`: `{success: true, token, user}` or the
    structured `{success: false, error}` produced by the surrounding
    try/catch (protocol-bridge.js:490-496). -/
inductive RoundTripResult where
  | success (token : JwtPayload) (user : RoundTripUser)
  | failure (error : String)
deriving Repr, DecidableEq

/-- The post-verification part of `executeRoundTrip`'s `'vc'` branch
    (protocol-bridge.js:458-486): extract the identity, find-or-create the
    mapping, and issue the session token; any thrown error is converted by
    the enclosing catch into a `failure` carrying the error message. -/
def roundTripAfterVerification (uuid : String) (st : Store)
    (data : VerifiableCredential) : RoundTripResult × Store :=
  match extractFromVerifiableCredential data with
  | Except.error msg => (RoundTripResult.failure msg, st)
  | Except.ok identity =>
    let r := findOrCreateMapping st identity ["vc"] uuid
    let mapping := r.1
    match generateJwt identity {
        migrationPhase := some mapping.migrationPhase
        did := mapping.did
        walletConnectedClaim := some mapping.walletConnected } with
    | Except.error msg => (RoundTripResult.failure msg, r.2)
    | Except.ok authToken =>
      (RoundTripResult.success authToken {
        id := identity.id
        email := identity.email
        name := identity.displayName
        roles := identity.roles
        migrationPhase := mapping.migrationPhase
        did := mapping.did
        walletConnected := mapping.walletConnected }, r.2)

/-- `ProtocolBridge.executeRoundTrip` for `protocol = 'vc'`
    (protocol-bridge.js:439-497).  `issuerDid` is
    `config.didRegistry.issuerDid`; `verifyCredential` is the collaborator
    (which may itself throw, modeled by `Except.error`).  Verification is
    skipped for the bootstrap issuer `did:example:issuer` or when no issuer
    DID is configured; a failed verification throws
    `verificationResult.error || 'Credential verification failed'`, and the
    enclosing catch turns every thrown error into `{success: false, error}`. -/
def executeRoundTripVc (issuerDid : Option String)
    (verifyCredential : VerifiableCredential → Except String VerifyResult)
    (uuid : String) (st : Store) (data : VerifiableCredential) :
    RoundTripResult × Store :=
  let skipVerification := data.issuer == "did:example:issuer" || !optTruthy issuerDid
  if !skipVerification then
    match verifyCredential data with
    | Except.error msg => (RoundTripResult.failure msg, st)
    | Except.ok verificationResult =>
      if !verificationResult.verified then
        (RoundTripResult.failure
          (jsOrS verificationResult.error "Credential verification failed"), st)
      else roundTripAfterVerification uuid st data
  else roundTripAfterVerification uuid st data

/-- Modelled from the spec (§3): the migration-phase rule — no DID ⇒
    `traditional`, DID without wallet ⇒ `preparation`, DID with wallet ⇒
    `hybrid`.  Stated from the spec's words for comparison with the code's
    phase computations. -/
def phaseRule (did : Option String) (walletConnected : Bool) : Phase :=
  if optTruthy did && walletConnected then Phase.hybrid
  else if optTruthy did then Phase.preparation
  else Phase.traditional

/-- `traditionalId`-uniqueness of a store: the unique index of
    correlator.js:52. -/
abbrev TidUnique (st : Store) : Prop := (st.map (fun m => m.traditionalId)).Nodup

/-- The DIDs attached to the mappings of a store. -/
def didsOf (st : Store) : List String := st.filterMap (fun m => m.did)

/-- DID-uniqueness of a store: no two mappings own the same DID (spec §3 /
    §8). -/
abbrev DidUnique (st : Store) : Prop := (didsOf st).Nodup

/-- `email`, `displayName` and `roles` recovered by running
    `extractFromVerifiableCredential` after `toVerifiableCredential`
    (`none` when either side fails). -/
def roundTripIdentityFields (identity : NormalizedIdentity) (did uuid : String)
    (issuanceDate expirationDate : String) (configIssuerDid : Option String) :
    Option (String × String × List String) :=
  match toVerifiableCredential identity did uuid issuanceDate expirationDate configIssuerDid with
  | Except.error _ => none
  | Except.ok vc =>
    match extractFromVerifiableCredential vc with
    | Except.error _ => none
    | Except.ok recovered => some (recovered.email, recovered.displayName, recovered.roles)

/- Concrete data for the per-claim witnesses and counterexamples. -/

/-- C5: a mapping recorded under the issuer-specific provider string. -/
def c5MappingBridge : Mapping :=
  { traditionalId := "u1", provider := ["protocol-bridge-saml"], email := "u1@example.com" }

/-- C5: a mapping whose only provider is `"saml"`. -/
def c5MappingSaml : Mapping :=
  { traditionalId := "u1", provider := ["saml"], email := "u1@example.com" }

/-- C1: a mapping with no DID and no wallet. -/
def c1Mapping : Mapping :=
  { traditionalId := "u1", provider := ["saml"], email := "a@b.com" }

/-- C8: a mapping that already carries a DID (no wallet). -/
def c8MappingWithDid : Mapping :=
  { traditionalId := "u1", provider := ["saml"], email := "a@b.com",
    did := some "did:key:1", migrationPhase := Phase.preparation }

/-- C8: a mapping with no DID. -/
def c8MappingNoDid : Mapping :=
  { traditionalId := "u1", provider := ["saml"], email := "a@b.com" }

/-- C3: mapping A of the spec's duplicate-DID scenario, owner of
    `did:key:1`. -/
def c3MappingA : Mapping :=
  { traditionalId := "u1", provider := ["saml"], email := "a@b.com",
    did := some "did:key:1", migrationPhase := Phase.preparation }

/-- C7: a normalized identity whose `displayName` is the empty string. -/
def c7Identity : NormalizedIdentity :=
  { id := some "x", authProtocol := "saml", email := "e@x.com",
    firstName := "A", lastName := "B", displayName := "", roles := [] }

/-- C9: a mapping whose only provider is `"saml"`. -/
def c9MappingSaml : Mapping :=
  { traditionalId := "u1", provider := ["saml"], email := "a@b.com" }

/-- C9: a mapping with providers `"saml"` and `"oidc"`. -/
def c9MappingBoth : Mapping :=
  { traditionalId := "u1", provider := ["saml", "oidc"], email := "a@b.com" }

/-- C10: a credential from a non-bootstrap issuer. -/
def c10Credential : VerifiableCredential :=
  { issuer := "did:web:other", issuanceDate := "2025-01-01T00:00:00Z",
    credentialSubject := some { id := some "s1", email := some "s1@x.com" } }

/-- C2: the mapping produced by `addDid` on an empty store for user `u1`. -/
def c2Mapping1 : Mapping :=
  { traditionalId := "u1", provider := ["saml"], email := "u1@example.com",
    did := some "did:key:1", didMethod := some "key",
    migrationPhase := Phase.preparation }

/-- C2: the hybrid mapping after `addDid` then `connectWallet`. -/
def c2Hybrid : Mapping :=
  { traditionalId := "u1", provider := ["saml"], email := "u1@example.com",
    did := some "did:key:1", didMethod := some "key", walletConnected := true,
    walletConnectionId := some "c1", migrationPhase := Phase.hybrid }

/-- C2: the same mapping after a second `addDid` with a fresh DID — wallet
    still connected, but the phase regressed to `preparation`. -/
def c2Regressed : Mapping :=
  { traditionalId := "u1", provider := ["saml"], email := "u1@example.com",
    did := some "did:key:2", didMethod := some "key", walletConnected := true,
    walletConnectionId := some "c1", migrationPhase := Phase.preparation }

/-- C4: first `createMapping` payload. -/
def c4Data1 : MappingData :=
  { traditionalId := "t1", provider := ["saml"], email := "a@b.com" }

/-- C4: second `createMapping` payload, same `traditionalId`, different
    provider. -/
def c4Data2 : MappingData :=
  { traditionalId := "t1", provider := ["oidc"], email := "c@d.com" }

/- Helper lemmas. -/

theorem normalizeProvider_eq (l : List String) : normalizeProvider l = l := rfl

theorem jsOrS_some_empty (s : String) : jsOrS (some s) "" = s := by
  simp only [jsOrS]
  split
  · next h => exact (beq_iff_eq.mp h).symm
  · rfl

theorem jsOrS_some_ne (s d : String) (h : s ≠ "") : jsOrS (some s) d = s := by
  simp [jsOrS, h]

theorem jsOrS_ne_empty (x : Option String) (d : String) (h : d ≠ "") : jsOrS x d ≠ "" := by
  cases x with
  | none => simpa [jsOrS] using h
  | some s =>
    simp only [jsOrS]
    split
    · exact h
    · next hs => exact fun he => hs (by simp [he])

theorem mem_foldl_dedup (l : List String) (acc : List String) (x : String) :
    x ∈ l.foldl (fun a y => if y ∈ a then a else a ++ [y]) acc ↔ x ∈ acc ∨ x ∈ l := by
  induction l generalizing acc with
  | nil => simp
  | cons y t ih =>
    simp only [List.foldl_cons]
    by_cases hy : y ∈ acc
    · rw [if_pos hy, ih]
      constructor
      · rintro (h | h)
        · exact Or.inl h
        · exact Or.inr (List.mem_cons_of_mem _ h)
      · rintro (h | h)
        · exact Or.inl h
        · rcases List.mem_cons.mp h with rfl | h
          · exact Or.inl hy
          · exact Or.inr h
    · rw [if_neg hy, ih]
      simp only [List.mem_append, List.mem_cons, List.mem_singleton]
      tauto

theorem mem_jsSetDedup (l : List String) (x : String) : x ∈ jsSetDedup l ↔ x ∈ l := by
  simpa using mem_foldl_dedup l [] x

theorem saveMapping_no_match (st : Store) (tid : String) (m' : Mapping)
    (h : ∀ x ∈ st, x.traditionalId ≠ tid) : saveMapping st tid m' = st := by
  induction st with
  | nil => rfl
  | cons m rest ih =>
    have hm : (m.traditionalId == tid) = false :=
      beq_eq_false_iff_ne.mpr (h m (List.mem_cons_self m rest))
    simp only [saveMapping, hm]
    simp only [Bool.false_eq_true, if_false, List.cons.injEq, true_and]
    exact ih fun x hx => h x (List.mem_cons_of_mem _ hx)

theorem saveMapping_append_left (st l : Store) (tid : String) (m' : Mapping)
    (h : ∀ x ∈ st, x.traditionalId ≠ tid) :
    saveMapping (st ++ l) tid m' = st ++ saveMapping l tid m' := by
  induction st with
  | nil => rfl
  | cons m rest ih =>
    have hm : (m.traditionalId == tid) = false :=
      beq_eq_false_iff_ne.mpr (h m (List.mem_cons_self m rest))
    simp only [List.cons_append, saveMapping, hm]
    simp only [Bool.false_eq_true, if_false, List.cons.injEq, true_and]
    exact ih fun x hx => h x (List.mem_cons_of_mem _ hx)

theorem saveMapping_decomp (st : Store) (tid : String) (m' e : Mapping)
    (h : st.find? (fun m => m.traditionalId == tid) = some e) :
    ∃ pre post, st = pre ++ e :: post ∧ e.traditionalId = tid ∧
      (∀ x ∈ pre, x.traditionalId ≠ tid) ∧
      saveMapping st tid m' = pre ++ m' :: post := by
  induction st with
  | nil => simp at h
  | cons m rest ih =>
    by_cases hm : m.traditionalId = tid
    · have hb : (m.traditionalId == tid) = true := beq_iff_eq.mpr hm
      simp only [List.find?, hb] at h
      obtain rfl : m = e := by injection h
      refine ⟨[], rest, by simp, hm, by simp, ?_⟩
      simp [saveMapping, hb]
    · have hb : (m.traditionalId == tid) = false := beq_eq_false_iff_ne.mpr hm
      simp only [List.find?, hb] at h
      obtain ⟨pre, post, h1, h2, h3, h4⟩ := ih h
      refine ⟨m :: pre, post, by simp [h1], h2, ?_, ?_⟩
      · intro x hx
        rcases List.mem_cons.mp hx with rfl | hx'
        · exact hm
        · exact h3 x hx'
      · simp only [saveMapping, hb, Bool.false_eq_true, if_false, h4, List.cons_append]

theorem mem_saveMapping_self (st : Store) (tid : String) (m' : Mapping)
    (h : ∃ x ∈ st, x.traditionalId = tid) : m' ∈ saveMapping st tid m' := by
  induction st with
  | nil =>
    obtain ⟨x, hx, _⟩ := h
    simp at hx
  | cons m rest ih =>
    by_cases hm : m.traditionalId = tid
    · simp [saveMapping, beq_iff_eq.mpr hm]
    · obtain ⟨x, hx, hxt⟩ := h
      rcases List.mem_cons.mp hx with rfl | hx'
      · exact absurd hxt hm
      · have hmem := ih ⟨x, hx', hxt⟩
        have hb : (m.traditionalId == tid) = false := beq_eq_false_iff_ne.mpr hm
        simp only [saveMapping, hb, Bool.false_eq_true, if_false]
        exact List.mem_cons_of_mem _ hmem

theorem map_tid_saveMapping (st : Store) (tid : String) (m' : Mapping)
    (h : m'.traditionalId = tid) :
    (saveMapping st tid m').map (fun m => m.traditionalId) =
      st.map (fun m => m.traditionalId) := by
  induction st with
  | nil => rfl
  | cons m rest ih =>
    by_cases hm : m.traditionalId = tid
    · simp [saveMapping, beq_iff_eq.mpr hm, h, hm]
    · have hb : (m.traditionalId == tid) = false := beq_eq_false_iff_ne.mpr hm
      simp only [saveMapping, hb, Bool.false_eq_true, if_false, List.map_cons,
        List.cons.injEq, true_and]
      exact ih

theorem didsOf_append (a b : Store) : didsOf (a ++ b) = didsOf a ++ didsOf b :=
  List.filterMap_append a b _

theorem mem_didsOf (st : Store) (d : String) :
    d ∈ didsOf st ↔ ∃ m ∈ st, m.did = some d := by
  simp [didsOf, List.mem_filterMap]

theorem findByDid_eq_none_iff (st : Store) (did : String) :
    findByDid st did = none ↔ ∀ m ∈ st, m.did ≠ some did := by
  simp [findByDid, List.find?_eq_none]

/-- Case analysis for `findByTraditionalId`: either nothing matches the
    `traditionalId` and the store is untouched, or a mapping with that
    `traditionalId` is returned, lives in the (possibly updated) store, and
    the update preserves every mapping's `traditionalId` and DID. -/
theorem fbt_main (st : Store) (tid : String) (prov : List String) :
    (findByTraditionalId st tid prov = (none, st) ∧
      (∀ x ∈ st, x.traditionalId ≠ tid)) ∨
    (∃ m st₁, findByTraditionalId st tid prov = (some m, st₁) ∧
      m.traditionalId = tid ∧ m ∈ st₁ ∧
      didsOf st₁ = didsOf st ∧
      st₁.map (fun x => x.traditionalId) = st.map (fun x => x.traditionalId)) := by
  simp only [findByTraditionalId, normalizeProvider]
  split
  · next m0 heq =>
    right
    refine ⟨m0, st, rfl, ?_, ?_, rfl, rfl⟩
    · split at heq
      · simp at heq
      · have hp := List.find?_some heq
        simp only [Bool.and_eq_true, beq_iff_eq] at hp
        exact hp.1
    · split at heq
      · simp at heq
      · exact List.mem_of_find?_eq_some heq
  · next heq0 =>
    split
    · next heq1 =>
      left
      refine ⟨rfl, fun x hx => ?_⟩
      have := List.find?_eq_none.mp heq1 x hx
      simpa using this
    · next idOnly heq1 =>
      have htid : idOnly.traditionalId = tid := by
        have := List.find?_some heq1
        simpa using this
      have hmem : idOnly ∈ st := List.mem_of_find?_eq_some heq1
      split
      · next r =>
        split
        · right
          exact ⟨idOnly, st, rfl, htid, hmem, rfl, rfl⟩
        · right
          obtain ⟨pre, post, hst, he, hpre, hsave⟩ :=
            saveMapping_decomp st tid { idOnly with provider := idOnly.provider ++ [r] }
              idOnly heq1
          refine ⟨_, _, rfl, htid, ?_, ?_, ?_⟩
          · exact mem_saveMapping_self st tid _ ⟨idOnly, hmem, htid⟩
          · rw [hsave, hst]
            simp [didsOf, List.filterMap_append, List.filterMap_cons]
          · rw [hsave, hst]
            simp
      · right
        exact ⟨idOnly, st, rfl, htid, hmem, rfl, rfl⟩

theorem deleteOne_removes_tid_of_unique (st : Store) (tid : String)
    (h : TidUnique st) :
    ∀ x ∈ (deleteOneByTraditionalId st tid).2, x.traditionalId ≠ tid := by
  induction st with
  | nil => simp [deleteOneByTraditionalId]
  | cons m rest ih =>
    simp only [TidUnique, List.map_cons, List.nodup_cons] at h
    obtain ⟨hm, hrest⟩ := h
    by_cases he : m.traditionalId = tid
    · subst he
      have hb : (m.traditionalId == m.traditionalId) = true := beq_self_eq_true _
      simp only [deleteOneByTraditionalId, hb, if_true]
      intro x hx hc
      exact hm (hc ▸ List.mem_map_of_mem (fun y => y.traditionalId) hx)
    · have hb : (m.traditionalId == tid) = false := beq_eq_false_iff_ne.mpr he
      simp only [deleteOneByTraditionalId, hb, Bool.false_eq_true, if_false]
      intro x hx
      rcases List.mem_cons.mp hx with rfl | hx'
      · exact he
      · exact ih hrest x hx'

theorem rederivePhase_did (m : Mapping) : (rederivePhase m).did = m.did := by
  unfold rederivePhase
  split
  · rfl
  · split
    · rfl
    · rfl

theorem rederivePhase_walletConnected (m : Mapping) :
    (rederivePhase m).walletConnected = m.walletConnected := by
  unfold rederivePhase
  split
  · rfl
  · split
    · rfl
    · rfl

theorem rederivePhase_phase (m : Mapping) :
    (rederivePhase m).migrationPhase =
      if optTruthy m.did then
        (if m.walletConnected then Phase.hybrid else Phase.preparation)
      else m.migrationPhase := by
  unfold rederivePhase
  cases hd : optTruthy m.did <;> cases hw : m.walletConnected <;> simp [hd, hw]

theorem mergePatchProviders_did (m : Mapping) (patch : UpdatePatch) :
    (mergePatchProviders m patch).did = m.did := by
  unfold mergePatchProviders
  cases patch.provider <;> rfl

theorem mergePatchProviders_walletConnected (m : Mapping) (patch : UpdatePatch) :
    (mergePatchProviders m patch).walletConnected = m.walletConnected := by
  unfold mergePatchProviders
  cases patch.provider <;> rfl

theorem mergePatchProviders_phase (m : Mapping) (patch : UpdatePatch) :
    (mergePatchProviders m patch).migrationPhase = m.migrationPhase := by
  unfold mergePatchProviders
  cases patch.provider <;> rfl

/- Claim theorems. -/

/-- C5: the two-phase lookup with relatedness heuristic holds:
    `findByTraditionalId("u1", ["saml"])` returns the mapping stored with
    provider `"protocol-bridge-saml"` (related via normalization +
    substring), without modifying it; and `findByTraditionalId("u1",
    ["oidc"])` against a mapping whose only provider is `"saml"` does not
    report not-found but returns the mapping with `"oidc"` appended to its
    provider list (and stores it). -/
theorem claim_C5 :
    findByTraditionalId [c5MappingBridge] "u1" ["saml"] =
      (some c5MappingBridge, [c5MappingBridge]) ∧
    findByTraditionalId [c5MappingSaml] "u1" ["oidc"] =
      (some { c5MappingSaml with provider := ["saml", "oidc"] },
       [{ c5MappingSaml with provider := ["saml", "oidc"] }]) :=
  ⟨rfl, rfl⟩

/-- C6 (amended): with the attribute/claim object present, every extractor
    tolerates missing optional attributes, returning `""` for absent
    email/first/last name (`displayName` falls back to the space-joined
    names, hence `" "`) and `[]` for absent roles.
    `extractFromVerifiableCredential` fails exactly when `credentialSubject`
    or a non-empty `credentialSubject.id` is absent; but `extractFromSaml`
    and `extractFromOidc` perform no check on their protocol-mandated
    identifying field (SAML NameID/subject, OIDC `sub`) and succeed with it
    absent (`extractFromOidc` fails only when both `auth_time` and `iat` are
    unusable). -/
theorem claim_C6 :
    (∀ (subject issuer timestamp : Option String) (now : String),
      extractFromSaml { subject := subject, issuer := issuer,
                        attributes := some {}, timestamp := timestamp } now =
        Except.ok { id := subject, authProtocol := "saml", authProvider := issuer,
                    email := "", firstName := "", lastName := "", displayName := " ",
                    roles := [], authTime := some (jsOrS timestamp now) }) ∧
    (∀ (sub iss : Option String) (iat : Nat),
      extractFromOidc { sub := sub, iss := iss, iat := some iat } =
        Except.ok { id := sub, authProtocol := "oidc", authProvider := iss,
                    email := "", firstName := "", lastName := "", displayName := " ",
                    roles := [], authTime := some (toString (iat * 1000)) }) ∧
    (∀ credential : VerifiableCredential,
      (extractFromVerifiableCredential credential =
          Except.error "Failed to extract identity from Verifiable Credential" ↔
        (credential.credentialSubject = none ∨
         ∃ subject, credential.credentialSubject = some subject ∧
           (subject.id = none ∨ subject.id = some "")))) ∧
    (∀ (issuer issuanceDate sid : String), sid ≠ "" →
      extractFromVerifiableCredential
          { issuer := issuer, issuanceDate := issuanceDate,
            credentialSubject := some { id := some sid } } =
        Except.ok { id := some sid, authProtocol := "vc", authProvider := some issuer,
                    email := "", firstName := "", lastName := "", displayName := " ",
                    roles := [], authTime := some issuanceDate }) := by
  refine ⟨fun subject issuer timestamp now => rfl,
          fun sub iss iat => rfl, ?_, ?_⟩
  · intro credential
    rcases credential with ⟨ctx, cid, cty, ciss, cisd, cexp, cs⟩
    cases cs with
    | none => simp [extractFromVerifiableCredential]
    | some s =>
      rcases s with ⟨sid, semail, sname, sfn, sln, sgn, sfam, sroles⟩
      cases sid with
      | none => simp [extractFromVerifiableCredential, optTruthy]
      | some x =>
        by_cases hx : x = ""
        · subst hx
          simp [extractFromVerifiableCredential, optTruthy]
        · simp [extractFromVerifiableCredential, optTruthy, hx]
  · intro issuer issuanceDate sid hsid
    simp [extractFromVerifiableCredential, optTruthy, hsid, jsOrS, normalizeRoles]

/-- C6 witness: a concrete instance of the amended claim — a credential whose
    subject has only an `id` extracts to an identity with empty optional
    fields. -/
theorem claim_C6_witness :
    extractFromVerifiableCredential
        { issuer := "did:web:iss", issuanceDate := "2025-01-01T00:00:00Z",
          credentialSubject := some { id := some "did:key:subj" } } =
      Except.ok { id := some "did:key:subj", authProtocol := "vc",
                  authProvider := some "did:web:iss", email := "", firstName := "",
                  lastName := "", displayName := " ", roles := [],
                  authTime := some "2025-01-01T00:00:00Z" } :=
  claim_C6.2.2.2 "did:web:iss" "2025-01-01T00:00:00Z" "did:key:subj" (by decide)

/-- C6 counterexample: `extractFromSaml` on an assertion with an (empty)
    attribute bag but *no* subject (NameID) succeeds — returning an identity
    with no `id` — where the claim demands an `InvalidInput` failure. -/
theorem claim_C6_counterexample :
    extractFromSaml { subject := none, issuer := some "https://idp.example",
                      attributes := some {}, timestamp := none }
        "2025-01-01T00:00:00Z" =
      Except.ok { id := none, authProtocol := "saml",
                  authProvider := some "https://idp.example", email := "",
                  firstName := "", lastName := "", displayName := " ", roles := [],
                  authTime := some "2025-01-01T00:00:00Z" } := rfl

/-- C8 (amended): `updateMigrationPhase` yields the requested phase exactly
    when the mapping has no (truthy) DID; when a DID is present the final
    re-derivation of `updateMapping` overrides the request, to `hybrid` if
    the wallet is connected and `preparation` otherwise. -/
theorem claim_C8 :
    ∀ (st : Store) (tid : String) (prov : List String) (phase : Phase) (m : Mapping),
      (updateMigrationPhase st tid prov phase).1 = Except.ok m →
      m.migrationPhase =
        if optTruthy m.did then
          (if m.walletConnected then Phase.hybrid else Phase.preparation)
        else phase := by
  intro st tid prov phase m h
  simp only [updateMigrationPhase, updateMapping, normalizeProvider] at h
  rcases fbt_main st tid prov with ⟨hnone, _⟩ | ⟨m0, st₁, hsome, _, _, _, _⟩
  · rw [hnone] at h
    simp at h
  · rw [hsome] at h
    simp only [Except.ok.injEq] at h
    subst h
    simp only [mergePatchProviders, applyPatchFields, rederivePhase, Option.getD_some]
    cases hd : optTruthy m0.did <;> cases hw : m0.walletConnected <;>
      simp [hd, hw]

/-- C8 witness: on a mapping without a DID, an explicit transition to
    `claiming` sticks. -/
theorem claim_C8_witness :
    (updateMigrationPhase [c8MappingNoDid] "u1" ["saml"] Phase.claiming).1 =
      Except.ok { c8MappingNoDid with migrationPhase := Phase.claiming } ∧
    ({ c8MappingNoDid with migrationPhase := Phase.claiming } : Mapping).migrationPhase =
      Phase.claiming := by
  have h : (updateMigrationPhase [c8MappingNoDid] "u1" ["saml"] Phase.claiming).1 =
      Except.ok { c8MappingNoDid with migrationPhase := Phase.claiming } := rfl
  have := claim_C8 [c8MappingNoDid] "u1" ["saml"] Phase.claiming
    { c8MappingNoDid with migrationPhase := Phase.claiming } h
  exact ⟨h, this.trans (by simp [c8MappingNoDid, optTruthy])⟩

/-- C8 counterexample: on a mapping that already has a DID (and no wallet),
    `updateMigrationPhase(..., 'claiming')` does *not* yield the requested
    phase — the re-derivation overrides it to `preparation`. -/
theorem claim_C8_counterexample :
    (updateMigrationPhase [c8MappingWithDid] "u1" ["saml"] Phase.claiming).1 =
      Except.ok { c8MappingWithDid with migrationPhase := Phase.preparation } ∧
    Phase.preparation ≠ Phase.claiming :=
  ⟨rfl, by decide⟩

/-- C7 (amended): for every normalized identity whose `displayName` is
    non-empty and every non-empty DID, extracting the credential built by
    `toVerifiableCredential` recovers `email`, `displayName` and `roles`
    exactly (the claim fails for an empty `displayName`, which the `||`
    fallback replaces by the space-joined names). -/
theorem claim_C7 :
    ∀ (identity : NormalizedIdentity) (did uuid issuanceDate expirationDate : String)
      (configIssuerDid : Option String),
      did ≠ "" → identity.displayName ≠ "" →
      roundTripIdentityFields identity did uuid issuanceDate expirationDate
          configIssuerDid =
        some (identity.email, identity.displayName, identity.roles) := by
  intro identity did uuid issuanceDate expirationDate configIssuerDid hdid hdn
  have hbdid : (did == "") = false := beq_eq_false_iff_ne.mpr hdid
  have hidne : ("urn:uuid:" ++ uuid) ≠ "" := by
    intro h
    have hdata := congrArg String.data h
    rw [String.data_append] at hdata
    simp [String.data] at hdata
  have hidbeq : (("urn:uuid:" ++ uuid) == "") = false := beq_eq_false_iff_ne.mpr hidne
  have hpre : List.isPrefixOf "urn:uuid:".data ("urn:uuid:" ++ uuid).data = true := by
    rw [String.data_append]
    exact List.isPrefixOf_iff_prefix.mpr (List.prefix_append _ _)
  have hiss : (jsOrS configIssuerDid "did:example:issuer" == "") = false :=
    beq_eq_false_iff_ne.mpr (jsOrS_ne_empty _ _ (by decide))
  simp only [roundTripIdentityFields, toVerifiableCredential, hbdid, Bool.false_eq_true,
    if_false, hidbeq, hpre, hiss, Bool.not_true, Bool.false_or, Bool.or_false,
    List.head?_cons, bne_self_eq_false, Bool.not_false, if_true]
  simp only [extractFromVerifiableCredential, optTruthy, bne, hbdid, Bool.not_false]
  simp only [if_true, jsOrS_some_empty, jsOrS_some_ne identity.displayName _ hdn,
    normalizeRoles]
  simp

/-- C7 witness: a concrete identity with non-empty display name survives the
    round trip on `email`, `displayName` and `roles`. -/
theorem claim_C7_witness :
    roundTripIdentityFields
        { id := some "x", authProtocol := "saml", email := "e@x.com",
          firstName := "A", lastName := "B", displayName := "A B",
          roles := ["admin"] }
        "did:key:z1" "uuid-1" "2025-01-01" "2026-01-01" (some "did:web:issuer") =
      some ("e@x.com", "A B", ["admin"]) :=
  claim_C7 _ "did:key:z1" "uuid-1" "2025-01-01" "2026-01-01" (some "did:web:issuer")
    (by decide) (by decide)

/-- C7 counterexample: for an identity whose `displayName` is `""`, the round
    trip returns displayName `"A B"` (the space-joined names), not the
    original empty string — so the claim, quantified over all identities
    with list-valued roles, fails. -/
theorem claim_C7_counterexample :
    c7Identity.displayName = "" ∧
    roundTripIdentityFields c7Identity "did:key:z1" "uuid-1" "2025-01-01" "2026-01-01"
        (some "did:web:issuer") = some ("e@x.com", "A B", []) ∧
    ("A B" : String) ≠ "" :=
  ⟨rfl, rfl, by decide⟩

/-- C1 (amended): the phase rule of §3 is applied by `createMapping` on every
    fresh insert; `updateMapping` re-derives the phase after the patch *only
    when the post-patch DID is present* (then the result matches the rule),
    while with no DID the patched phase value is kept unchanged — the source
    has no `else` branch resetting the phase to `traditional`. -/
theorem claim_C1 :
    (∀ (st : Store) (data : MappingData),
       st.find? (fun m => m.traditionalId == data.traditionalId) = none →
       ((createMapping st data).1).migrationPhase =
         phaseRule data.did data.walletConnected) ∧
    (∀ (st : Store) (tid : String) (prov : List String) (patch : UpdatePatch)
       (m : Mapping),
       (updateMapping st tid prov patch).1 = Except.ok m →
       (optTruthy m.did = true → m.migrationPhase = phaseRule m.did m.walletConnected) ∧
       (optTruthy m.did = false →
         ∀ p, patch.migrationPhase = some p → m.migrationPhase = p)) := by
  constructor
  · intro st data h
    simp only [createMapping, normalizeProvider]
    simp only [h]
    simp [phaseRule]
  · intro st tid prov patch m h
    simp only [updateMapping, normalizeProvider] at h
    rcases fbt_main st tid prov with ⟨hnone, _⟩ | ⟨m0, st₁, hsome, _, _, _, _⟩
    · rw [hnone] at h
      simp at h
    · rw [hsome] at h
      simp only [Except.ok.injEq] at h
      subst h
      constructor
      · intro ht
        rw [rederivePhase_did] at ht
        rw [rederivePhase_phase, rederivePhase_did, rederivePhase_walletConnected]
        simp [phaseRule, ht]
      · intro hf p hp
        rw [rederivePhase_did] at hf
        rw [rederivePhase_phase]
        simp only [hf, Bool.false_eq_true, if_false]
        rw [mergePatchProviders_phase]
        simp [applyPatchFields, hp]

/-- C1 witness: a fresh insert with a DID and no wallet gets phase
    `preparation`, as the rule prescribes. -/
theorem claim_C1_witness :
    ((createMapping [] { traditionalId := "t1", provider := ["saml"],
                         email := "e@x.com", did := some "did:key:9" }).1).migrationPhase =
      phaseRule (some "did:key:9") false :=
  claim_C1.1 [] _ rfl

/-- C1 counterexample: `updateMapping` with patch
    `{migrationPhase := full_ssi}` on a DID-less mapping leaves the phase at
    `full_ssi`, while the rule evaluated on the post-patch
    `(did, walletConnected) = (none, false)` demands `traditional`. -/
theorem claim_C1_counterexample :
    (updateMapping [c1Mapping] "u1" ["saml"]
        { migrationPhase := some Phase.full_ssi }).1 =
      Except.ok { c1Mapping with migrationPhase := Phase.full_ssi } ∧
    ({ c1Mapping with migrationPhase := Phase.full_ssi } : Mapping).did = none ∧
    ({ c1Mapping with migrationPhase := Phase.full_ssi } : Mapping).walletConnected = false ∧
    phaseRule none false = Phase.traditional ∧
    Phase.full_ssi ≠ Phase.traditional :=
  ⟨rfl, rfl, rfl, rfl, by decide⟩

/-- C2 (amended): a successful `addDid` always sets the resulting phase to
    exactly `preparation` — establishing at least `preparation`, but also
    regressing a `hybrid` mapping when a fresh DID is attached after the
    wallet was connected — and `connectWallet` on a mapping that already has
    a (truthy) DID yields `hybrid`. -/
theorem claim_C2 :
    (∀ (st : Store) (tid : String) (prov : List String) (did dm : String)
       (m : Mapping),
       (addDid st tid prov did dm).1 = Except.ok m →
       m.migrationPhase = Phase.preparation) ∧
    (∀ (st : Store) (tid : String) (prov : List String) (cid : String)
       (m0 : Mapping) (st₁ : Store),
       findByTraditionalId st tid prov = (some m0, st₁) →
       optTruthy m0.did = true →
       ((connectWallet st tid prov cid).1).migrationPhase = Phase.hybrid) := by
  constructor
  · intro st tid prov did dm m h
    simp only [addDid] at h
    cases hfd : findByDid st did with
    | some x =>
      rw [hfd] at h
      simp at h
    | none =>
      rw [hfd] at h
      simp only [Except.ok.injEq] at h
      subst h
      rfl
  · intro st tid prov cid m0 st₁ h ht
    simp only [connectWallet, h]
    simp [ht]

/-- C2 witness: on an empty store, `addDid` produces a `preparation` mapping,
    and `connectWallet` on that mapping (which has a DID) yields `hybrid`. -/
theorem claim_C2_witness :
    (addDid [] "u1" ["saml"] "did:key:1" "key").1 = Except.ok c2Mapping1 ∧
    c2Mapping1.migrationPhase = Phase.preparation ∧
    ((connectWallet [c2Mapping1] "u1" ["saml"] "c1").1).migrationPhase = Phase.hybrid :=
  ⟨rfl,
   claim_C2.1 [] "u1" ["saml"] "did:key:1" "key" c2Mapping1 rfl,
   claim_C2.2 [c2Mapping1] "u1" ["saml"] "c1" c2Mapping1 [c2Mapping1] rfl rfl⟩

/-- C2 counterexample: `addDid`, `connectWallet`, `addDid` (fresh DID) — a
    sequence of only those two operations — reaches `hybrid` and then
    regresses to `preparation`, contradicting the no-regression claim. -/
theorem claim_C2_counterexample :
    (connectWallet (addDid [] "u1" ["saml"] "did:key:1" "key").2
        "u1" ["saml"] "c1").1 = c2Hybrid ∧
    (addDid (connectWallet (addDid [] "u1" ["saml"] "did:key:1" "key").2
        "u1" ["saml"] "c1").2 "u1" ["saml"] "did:key:2" "key").1 =
      Except.ok c2Regressed ∧
    c2Hybrid.migrationPhase = Phase.hybrid ∧
    c2Regressed.migrationPhase = Phase.preparation ∧
    phaseIdx Phase.preparation < phaseIdx Phase.hybrid :=
  ⟨rfl, rfl, rfl, rfl, by decide⟩

/-- C10: `executeRoundTrip('vc', …)` never throws: every outcome is a
    structured success (with token and user) or a structured failure carrying
    only an error message; in particular, when verification is not skipped
    and the collaborator reports `verified: false`, the result is
    `{success: false, error: verificationResult.error || 'Credential
    verification failed'}` with the store untouched, and a collaborator
    throw is likewise converted to a structured failure. -/
theorem claim_C10 :
    ∀ (issuerDid : Option String)
      (verify : VerifiableCredential → Except String VerifyResult)
      (uuid : String) (st : Store) (data : VerifiableCredential),
      (∀ vr, data.issuer ≠ "did:example:issuer" → optTruthy issuerDid = true →
        verify data = Except.ok vr → vr.verified = false →
        executeRoundTripVc issuerDid verify uuid st data =
          (RoundTripResult.failure (jsOrS vr.error "Credential verification failed"),
           st)) ∧
      (∀ msg, data.issuer ≠ "did:example:issuer" → optTruthy issuerDid = true →
        verify data = Except.error msg →
        executeRoundTripVc issuerDid verify uuid st data =
          (RoundTripResult.failure msg, st)) ∧
      ((∃ token user st', executeRoundTripVc issuerDid verify uuid st data =
          (RoundTripResult.success token user, st')) ∨
       (∃ msg st', executeRoundTripVc issuerDid verify uuid st data =
          (RoundTripResult.failure msg, st'))) := by
  intro issuerDid verify uuid st data
  refine ⟨?_, ?_, ?_⟩
  · intro vr hiss hcfg hv hver
    have hbiss : (data.issuer == "did:example:issuer") = false :=
      beq_eq_false_iff_ne.mpr hiss
    simp only [executeRoundTripVc, hbiss, hcfg, hv]
    simp [hver]
  · intro msg hiss hcfg hv
    have hbiss : (data.issuer == "did:example:issuer") = false :=
      beq_eq_false_iff_ne.mpr hiss
    simp only [executeRoundTripVc, hbiss, hcfg, hv]
    simp
  · rcases hres : executeRoundTripVc issuerDid verify uuid st data with ⟨r, st'⟩
    cases r with
    | success token user => exact Or.inl ⟨token, user, st', rfl⟩
    | failure msg => exact Or.inr ⟨msg, st', rfl⟩

/-- C10 witness: a failing verifier on a non-bootstrap issuer yields the
    structured failure with exactly the collaborator's error message and an
    unchanged store. -/
theorem claim_C10_witness :
    executeRoundTripVc (some "did:web:cfg")
        (fun _ => Except.ok { verified := false, error := some "bad signature" })
        "uuid-1" [] c10Credential =
      (RoundTripResult.failure "bad signature", []) := by
  have h := (claim_C10 (some "did:web:cfg")
      (fun _ => Except.ok { verified := false, error := some "bad signature" })
      "uuid-1" [] c10Credential).1
      { verified := false, error := some "bad signature" }
      (by decide) rfl rfl rfl
  exact h

theorem createMapping_fresh (st : Store) (data : MappingData)
    (h : ∀ m ∈ st, m.traditionalId ≠ data.traditionalId) :
    ∃ m1, createMapping st data = (m1, st ++ [m1]) ∧
      m1.traditionalId = data.traditionalId ∧ m1.provider = data.provider ∧
      m1.did = data.did := by
  have h1 : st.find? (fun m => m.traditionalId == data.traditionalId) = none :=
    List.find?_eq_none.mpr fun x hx => by simpa using h x hx
  refine ⟨(createMapping st data).1, ?_, ?_, ?_, ?_⟩ <;>
    simp only [createMapping, h1]

/-- C4: `createMapping` is idempotent on `traditionalId` — two calls with the
    same `traditionalId` against a store that does not yet contain it leave
    exactly one stored mapping for it (appended to the untouched rest of the
    store), returned by the second call, whose provider set is the union of
    both calls' providers. -/
theorem claim_C4 :
    ∀ (st : Store) (d1 d2 : MappingData),
      d1.traditionalId = d2.traditionalId →
      (∀ m ∈ st, m.traditionalId ≠ d1.traditionalId) →
      (createMapping (createMapping st d1).2 d2).2 =
        st ++ [(createMapping (createMapping st d1).2 d2).1] ∧
      ((createMapping (createMapping st d1).2 d2).1).traditionalId = d1.traditionalId ∧
      (∀ p, p ∈ ((createMapping (createMapping st d1).2 d2).1).provider ↔
        (p ∈ d1.provider ∨ p ∈ d2.provider)) := by
  intro st d1 d2 htid hst
  obtain ⟨m1, hc1, hm1tid, hm1prov, _⟩ := createMapping_fresh st d1 hst
  rw [hc1]
  have hstn : st.find? (fun m => m.traditionalId == d2.traditionalId) = none :=
    List.find?_eq_none.mpr fun x hx => by simpa [← htid] using hst x hx
  have hfind2 : (st ++ [m1]).find? (fun m => m.traditionalId == d2.traditionalId) =
      some m1 := by
    rw [List.find?_append, hstn]
    simp [List.find?, hm1tid, htid]
  have hm1tid2 : (m1.traditionalId == d2.traditionalId) = true :=
    beq_iff_eq.mpr (hm1tid.trans htid)
  by_cases hnew : d2.provider.any (fun p => !m1.provider.contains p) = true
  · simp only [createMapping, hfind2, hnew, if_true]
    refine ⟨?_, by simpa using hm1tid, ?_⟩
    · rw [saveMapping_append_left st [m1] d2.traditionalId _
        (fun x hx => by simpa [← htid] using hst x hx)]
      simp [saveMapping, hm1tid2]
    · intro p
      simp only [mem_jsSetDedup, List.mem_append, hm1prov]
  · have hnew' : (d2.provider.any fun p => !m1.provider.contains p) = false :=
      Bool.eq_false_iff.mpr hnew
    simp only [createMapping, hfind2, hnew', Bool.false_eq_true, if_false]
    refine ⟨by trivial, by simpa using hm1tid, ?_⟩
    intro p
    rw [hm1prov]
    constructor
    · exact Or.inl
    · rintro (hp | hp)
      · exact hp
      · have := List.any_eq_false.mp hnew' p hp
        simpa [hm1prov] using this

/-- C4 witness: two concrete `createMapping` calls with the same
    `traditionalId` (providers `saml` then `oidc`) leave exactly one stored
    mapping whose provider set contains `oidc`. -/
theorem claim_C4_witness :
    (createMapping (createMapping [] c4Data1).2 c4Data2).2 =
      [] ++ [(createMapping (createMapping [] c4Data1).2 c4Data2).1] ∧
    ("oidc" ∈ ((createMapping (createMapping [] c4Data1).2 c4Data2).1).provider ↔
      ("oidc" ∈ c4Data1.provider ∨ "oidc" ∈ c4Data2.provider)) := by
  obtain ⟨h1, _, h3⟩ := claim_C4 [] c4Data1 c4Data2 rfl (by simp)
  exact ⟨h1, h3 "oidc"⟩

/-- C9 (amended): with a non-empty provider list (over a store with unique
    `traditionalId`s), `deleteMapping` returns `true` exactly when a mapping
    with that `traditionalId` exists; it deletes the whole mapping exactly
    when every *requested* provider is on the (post-lookup) record and the
    record has at most as many providers as requested (the converse of the
    claimed "requested covers record" test); otherwise it keeps the record
    and removes exactly the requested providers — possibly leaving an empty
    provider list. -/
theorem claim_C9 :
    ∀ (st : Store) (tid : String) (prov : List String),
      prov ≠ [] → TidUnique st →
      ((deleteMapping st tid prov).1 = true ↔ ∃ x ∈ st, x.traditionalId = tid) ∧
      (∀ m st₁, findByTraditionalId st tid prov = (some m, st₁) →
        ((m.provider.length ≤ prov.length ∧ ∀ p ∈ prov, p ∈ m.provider) →
          ∀ x ∈ (deleteMapping st tid prov).2, x.traditionalId ≠ tid) ∧
        (¬(m.provider.length ≤ prov.length ∧ ∀ p ∈ prov, p ∈ m.provider) →
          ∃ x ∈ (deleteMapping st tid prov).2, x.traditionalId = tid ∧
            x.provider = m.provider.filter (fun p => !prov.contains p))) := by
  intro st tid prov hprov htids
  have hprovb : prov.isEmpty = false := by
    cases prov with
    | nil => exact absurd rfl hprov
    | cons a t => rfl
  constructor
  · rcases fbt_main st tid prov with ⟨hnone, hno⟩ | ⟨m, st₁, hsome, htid, hmem, _, hmap⟩
    · simp only [deleteMapping, normalizeProvider, hprovb, Bool.not_false, if_true, hnone]
      constructor
      · intro h
        simp at h
      · rintro ⟨x, hx, hxt⟩
        exact absurd hxt (hno x hx)
    · simp only [deleteMapping, normalizeProvider, hprovb, Bool.not_false, if_true, hsome]
      constructor
      · intro _
        have : m.traditionalId ∈ st.map (fun x => x.traditionalId) := by
          rw [← hmap]
          exact List.mem_map_of_mem _ hmem
        obtain ⟨x, hx, hxt⟩ := List.mem_map.mp this
        exact ⟨x, hx, by rw [hxt, htid]⟩
      · intro _
        split <;> rfl
  · intro m st₁ hf
    rcases fbt_main st tid prov with ⟨hnone, _⟩ | ⟨m'', st₁'', hsome, htid, hmem, _, hmap⟩
    · rw [hnone] at hf
      simp at hf
    · rw [hsome] at hf
      have hm : m = m'' := (Option.some.inj (congrArg Prod.fst hf)).symm
      have hs : st₁ = st₁'' := (congrArg Prod.snd hf).symm
      subst hm
      subst hs
      have htids₁ : TidUnique st₁ := by
        simp only [TidUnique]
        rw [hmap]
        exact htids
      constructor
      · intro hcov
        have hcond : (m.provider.length ≤ prov.length &&
            prov.all (fun p => m.provider.contains p)) = true := by
          simp only [Bool.and_eq_true, decide_eq_true_eq, List.all_eq_true]
          exact ⟨hcov.1, fun p hp => by simpa using hcov.2 p hp⟩
        simp only [deleteMapping, normalizeProvider, hprovb, Bool.not_false, if_true,
          hsome, hcond, if_true]
        exact deleteOne_removes_tid_of_unique st₁ tid htids₁
      · intro hncov
        have hcond : (m.provider.length ≤ prov.length &&
            prov.all (fun p => m.provider.contains p)) = false := by
          rw [Bool.eq_false_iff]
          intro hc
          apply hncov
          simp only [Bool.and_eq_true, decide_eq_true_eq, List.all_eq_true] at hc
          exact ⟨hc.1, fun p hp => by simpa using hc.2 p hp⟩
        simp only [deleteMapping, normalizeProvider, hprovb, Bool.not_false, if_true,
          hsome, hcond, Bool.false_eq_true, if_false]
        exact ⟨{ m with provider := m.provider.filter (fun p => !prov.contains p) },
          mem_saveMapping_self st₁ tid _ ⟨m, hmem, htid⟩, htid, rfl⟩

/-- C9 witness: stripping one of two providers keeps the record with exactly
    the requested provider removed, and reports `true`. -/
theorem claim_C9_witness :
    (deleteMapping [c9MappingBoth] "u1" ["oidc"]).1 = true ∧
    (∃ x ∈ (deleteMapping [c9MappingBoth] "u1" ["oidc"]).2,
      x.traditionalId = "u1" ∧
      x.provider = c9MappingBoth.provider.filter
        (fun p => !(["oidc"] : List String).contains p)) := by
  obtain ⟨h1, h2⟩ := claim_C9 [c9MappingBoth] "u1" ["oidc"] (by decide) (by decide)
  have h3 := h2 c9MappingBoth [c9MappingBoth] rfl
  exact ⟨h1.mpr ⟨c9MappingBoth, by decide⟩, h3.2 (by decide)⟩

/-- C9 counterexample: requested providers `["saml","oidc"]` cover all the
    providers of a record holding only `"saml"`, yet `deleteMapping` does not
    delete the record — it keeps it with an empty provider list. -/
theorem claim_C9_counterexample :
    (∀ p ∈ c9MappingSaml.provider, p ∈ (["saml", "oidc"] : List String)) ∧
    deleteMapping [c9MappingSaml] "u1" ["saml", "oidc"] =
      (true, [{ c9MappingSaml with provider := [] }]) ∧
    ({ c9MappingSaml with provider := [] } : Mapping).traditionalId = "u1" :=
  ⟨by decide, rfl, rfl⟩

/-- Replacing the (first) mapping of a given `traditionalId` by a mapping
    whose DID is a fresh `d` preserves DID-uniqueness. -/
theorem didUnique_saveMapping_set_did (st₁ : Store) (tid : String) (updated : Mapping)
    (d : String) (hupd : updated.did = some d)
    (hex : ∃ x ∈ st₁, x.traditionalId = tid)
    (hu : DidUnique st₁) (hnotin : d ∉ didsOf st₁) :
    DidUnique (saveMapping st₁ tid updated) := by
  cases hfind : st₁.find? (fun m => m.traditionalId == tid) with
  | none =>
    obtain ⟨x, hx, hxt⟩ := hex
    have := List.find?_eq_none.mp hfind x hx
    exact absurd hxt (by simpa using this)
  | some e =>
    obtain ⟨pre, post, hst, he, hpre, hsave⟩ := saveMapping_decomp st₁ tid updated e hfind
    rw [hsave]
    have hdids₁ : didsOf st₁ = didsOf pre ++ didsOf (e :: post) := by
      rw [hst, didsOf_append]
    have hres : didsOf (pre ++ updated :: post) = didsOf pre ++ d :: didsOf post := by
      rw [didsOf_append]
      have : didsOf (updated :: post) = d :: didsOf post := by
        simp [didsOf, List.filterMap_cons, hupd]
      rw [this]
    show (didsOf (pre ++ updated :: post)).Nodup
    rw [hres, List.nodup_middle, List.nodup_cons]
    constructor
    · intro hd
      apply hnotin
      rw [hdids₁]
      cases hed : e.did with
      | none =>
        have heq : didsOf (e :: post) = didsOf post := by
          simp [didsOf, List.filterMap_cons, hed]
        rw [heq]
        exact hd
      | some d0 =>
        have heq : didsOf (e :: post) = d0 :: didsOf post := by
          simp [didsOf, List.filterMap_cons, hed]
        rw [heq]
        rcases List.mem_append.mp hd with h | h
        · exact List.mem_append.mpr (Or.inl h)
        · exact List.mem_append.mpr (Or.inr (List.mem_cons_of_mem _ h))
    · have hu' : (didsOf pre ++ didsOf (e :: post)).Nodup := hdids₁ ▸ hu
      cases hed : e.did with
      | none =>
        have heq : didsOf (e :: post) = didsOf post := by
          simp [didsOf, List.filterMap_cons, hed]
        rwa [heq] at hu'
      | some d0 =>
        have heq : didsOf (e :: post) = d0 :: didsOf post := by
          simp [didsOf, List.filterMap_cons, hed]
        rw [heq] at hu'
        exact (List.nodup_cons.mp (List.nodup_middle.mp hu')).2

/-- C3 (amended): `addDid` fails with the duplicate-DID conflict exactly when
    the DID is already attached to *any* mapping — including one whose
    `traditionalId` equals the caller's own (the source checks `findByDid`
    only, correlator.js:316-319) — on such a failure the store is unchanged,
    and a successful `addDid` preserves DID-uniqueness of the store. -/
theorem claim_C3 :
    ∀ (st : Store) (tid : String) (prov : List String) (did dm : String),
      ((addDid st tid prov did dm).1 = Except.error (CorrError.conflict did) ↔
        ∃ m ∈ st, m.did = some did) ∧
      (∀ e, (addDid st tid prov did dm).1 = Except.error e →
        (addDid st tid prov did dm).2 = st) ∧
      (DidUnique st → DidUnique (addDid st tid prov did dm).2) := by
  intro st tid prov did dm
  cases hfd : findByDid st did with
  | some x =>
    have hx : ∃ m ∈ st, m.did = some did := by
      refine ⟨x, List.mem_of_find?_eq_some hfd, ?_⟩
      have := List.find?_some hfd
      simpa using this
    refine ⟨⟨fun _ => hx, fun _ => by simp [addDid, hfd]⟩, ?_, ?_⟩
    · intro e _
      simp [addDid, hfd]
    · intro hu
      simpa only [addDid, hfd] using hu
  | none =>
    have hnod : ∀ m ∈ st, m.did ≠ some did := (findByDid_eq_none_iff st did).mp hfd
    have hne : ∀ e : CorrError, (addDid st tid prov did dm).1 ≠ Except.error e := by
      intro e h
      simp [addDid, hfd] at h
    refine ⟨⟨fun h => absurd h (hne _), fun hx => ?_⟩, fun e h => absurd h (hne e), ?_⟩
    · obtain ⟨x, hxm, hxd⟩ := hx
      exact absurd hxd (hnod x hxm)
    · intro hu
      simp only [addDid, hfd]
      rcases fbt_main st tid prov with ⟨hnone, hno⟩ | ⟨m0, st₁, hsome, htid0, hmem0, hdids, hmap⟩
      · rw [hnone]
        simp only []
        obtain ⟨m1, hc1, hm1tid, hm1prov, hm1did⟩ :=
          createMapping_fresh st
            { traditionalId := tid, provider := normalizeProvider prov,
              email := tid ++ "@example.com", status := "active",
              migrationPhase := Phase.traditional } hno
        rw [hc1]
        refine didUnique_saveMapping_set_did (st ++ [m1]) tid _ did rfl
          ⟨m1, List.mem_append_right st (List.mem_singleton_self m1), hm1tid⟩ ?_ ?_
        · show (didsOf (st ++ [m1])).Nodup
          rw [didsOf_append]
          have : didsOf [m1] = [] := by simp [didsOf, List.filterMap_cons, hm1did]
          rw [this, List.append_nil]
          exact hu
        · rw [didsOf_append]
          have : didsOf [m1] = [] := by simp [didsOf, List.filterMap_cons, hm1did]
          rw [this, List.append_nil]
          intro hd
          obtain ⟨y, hy, hyd⟩ := (mem_didsOf st did).mp hd
          exact hnod y hy hyd
      · rw [hsome]
        simp only []
        refine didUnique_saveMapping_set_did st₁ tid _ did rfl ⟨m0, hmem0, htid0⟩ ?_ ?_
        · show (didsOf st₁).Nodup
          rw [hdids]
          exact hu
        · rw [hdids]
          intro hd
          obtain ⟨y, hy, hyd⟩ := (mem_didsOf st did).mp hd
          exact hnod y hy hyd

/-- C3 witness: the spec's duplicate-DID scenario — mapping A owns
    `did:key:1`; `addDid("userB", ["email"], "did:key:1", "key")` fails with
    the conflict, the store is unchanged, and an `addDid` with a fresh DID
    preserves DID-uniqueness. -/
theorem claim_C3_witness :
    (addDid [c3MappingA] "userB" ["email"] "did:key:1" "key").1 =
      Except.error (CorrError.conflict "did:key:1") ∧
    (addDid [c3MappingA] "userB" ["email"] "did:key:1" "key").2 = [c3MappingA] ∧
    DidUnique (addDid [c3MappingA] "userB" ["email"] "did:key:2" "key").2 := by
  obtain ⟨h1, h2, _⟩ := claim_C3 [c3MappingA] "userB" ["email"] "did:key:1" "key"
  obtain ⟨_, _, h3⟩ := claim_C3 [c3MappingA] "userB" ["email"] "did:key:2" "key"
  have he := h1.mpr ⟨c3MappingA, List.mem_singleton_self _, rfl⟩
  exact ⟨he, h2 _ he, h3 (by decide)⟩

/-- C3 counterexample: the store's only owner of `did:key:1` is `u1` itself —
    no mapping with a *different* `traditionalId` holds it — yet
    `addDid("u1", ["saml"], "did:key:1", "key")` still fails with the
    conflict, so "fails exactly when the DID belongs to a mapping whose
    `traditionalId` differs" is false. -/
theorem claim_C3_counterexample :
    (∀ m ∈ ([c3MappingA] : Store),
      ¬(m.did = some "did:key:1" ∧ m.traditionalId ≠ "u1")) ∧
    (addDid [c3MappingA] "u1" ["saml"] "did:key:1" "key").1 =
      Except.error (CorrError.conflict "did:key:1") :=
  ⟨by decide, rfl⟩

end Bridge
